import Mathlib

/-
Verification development for the basic inspector adapter
(app/adapters/basic.js): message-callback registration and dispatch
(onMessageReceived / _messageReceived), the startup version-check
handshake (init / _checkVersion), and the semantic-version comparator
(compareVersion / cleanupVersion / compare).
-/

namespace BasicAdapter

/- The version comparator. -/

/-- JS line terminators: the characters NOT matched by `.` in the regex
`-.*` (global) used by `cleanupVersion`. -/
def isLineTerminator (c : Char) : Bool :=
  c = '\n' || c = '\r' || c = Char.ofNat 0x2028 || c = Char.ofNat 0x2029

/-- Scanning mode for `cleanupAux`: `scan` is ordinary copying; `skip` is
inside a match of the regex `-.*`, deleting characters until a line
terminator or the end of the string. -/
inductive CleanMode where
  | scan
  | skip

/-- Character-level model of the replacement of regex `-.*` (global
flag) by the empty string, as `cleanupVersion` performs it: from each `-`
on, characters up to (not including) the next line terminator are removed;
scanning then resumes. -/
def cleanupAux : CleanMode → List Char → List Char
  | _, [] => []
  | .scan, c :: rest =>
    if c = '-' then cleanupAux .skip rest else c :: cleanupAux .scan rest
  | .skip, c :: rest =>
    if isLineTerminator c then c :: cleanupAux .scan rest
    else cleanupAux .skip rest

/-- `cleanupVersion(version)`: replace every match of the global regex
`-.*` by the empty string — removes `-alpha`, `-beta`, etc. from
versions. -/
def cleanupVersion (version : String) : String :=
  ⟨cleanupAux .scan version.data⟩

/-- JS `String.prototype.split('.')`: splits at every `'.'`, keeping empty
pieces (in JS, `"".split('.')` is `[""]`). -/
def splitOnDot : List Char → List (List Char)
  | [] => [[]]
  | c :: rest =>
    if c = '.' then [] :: splitOnDot rest
    else
      match splitOnDot rest with
      | [] => [[c]]
      | g :: gs => (c :: g) :: gs

/-- Value of a string of decimal digits. -/
def digitsToNat (cs : List Char) : Nat :=
  cs.foldl (fun n c => 10 * n + (c.toNat - 48)) 0

/-- Model of JS numeric coercion `+s` on the strings that reach it here
(components of a cleaned version string split on `'.'`, hence containing
no `-` and no `.`): the empty string coerces to 0, a digit string to its
exact integer value, and anything else — as exercised by this
development — to NaN (`none`). (The exotic numeric spellings JS would
also accept, such as exponents, hex, or surrounding whitespace, do not
occur in version components, and JS doubles are exact on the component
magnitudes that occur in practice.) -/
def jsToNat (cs : List Char) : Option Nat :=
  if cs.isEmpty then some 0
  else if cs.all Char.isDigit then some (digitsToNat cs) else none

/-- `+versionArr[i]`: an out-of-range index reads `undefined`, and
`+undefined` is NaN (`none`). -/
def getComp (parts : List (List Char)) (i : Nat) : Option Nat :=
  match parts[i]? with
  | some cs => jsToNat cs
  | none => none

/-- `compare(val, number)`: `===`, then `<`, then `>`; with a NaN operand
every test is false and the function falls off its end, yielding
`undefined` (`none`). -/
def compareNum : Option Nat → Option Nat → Option Int
  | some val, some number =>
    if val = number then some 0
    else if val < number then some (-1)
    else some 1
  | _, _ => none

/-- The loop of `compareVersion`, unrolled (`for (let i = 0; i < 3; i++)`):
return at the first `compared !== 0` — which includes an `undefined`
result of `compare` — else return 0. -/
def compareParts (v1 v2 : List (List Char)) : Option Int :=
  let c0 := compareNum (getComp v1 0) (getComp v2 0)
  if c0 ≠ some 0 then c0
  else
    let c1 := compareNum (getComp v1 1) (getComp v2 1)
    if c1 ≠ some 0 then c1
    else
      let c2 := compareNum (getComp v1 2) (getComp v2 2)
      if c2 ≠ some 0 then c2
      else some 0

/-- `compareVersion(version1, version2)`: clean both inputs, split on
`'.'`, compare the first three components. -/
def compareVersion (version1 version2 : String) : Option Int :=
  compareParts (splitOnDot (cleanupVersion version1).data)
    (splitOnDot (cleanupVersion version2).data)

/-- `compareVersion` lifted to possibly-`undefined` arguments:
`cleanupVersion(undefined)` calls `undefined.replace`, a TypeError
(`Except.error`). -/
def compareVersionOpt : Option String → Option String → Except Unit (Option Int)
  | some v1, some v2 => .ok (compareVersion v1 v2)
  | _, _ => .error ()

/- The adapter. -/

/-- An inbound message as the version-check listener reads it:
`let { name, version } = message`, an absent field reading as `undefined`
(`none`). -/
structure Message where
  name : Option String
  version : Option String
deriving DecidableEq

/-- Outcome of invoking one registered callback on a message: it either
returns normally or throws. -/
inductive CbOutcome where
  | ok
  | exn
deriving DecidableEq

/-- A registered message callback, abstracted by its observable outcome on
each message. -/
def Callback := Message → CbOutcome

/-- The outbound message shape `{ type: ..., from: ... }`. -/
structure OutMessage where
  type : String
  «from» : String
deriving DecidableEq

/-- The build configuration read by `_checkVersion`. -/
structure Config where
  previousEmberVersionsSupported : List String
  emberVersionsSupported : List String

/-- Result of one run of the listener body that `_checkVersion` registers:
it returns without calling `onVersionMismatch`, or it calls
`onVersionMismatch neededVersion` (`none` models `undefined`), or it
throws a TypeError (`compareVersion` applied to `undefined`). -/
inductive CheckResult where
  | noCall
  | call (neededVersion : Option String)
  | typeError
deriving DecidableEq

/-- Body of the listener that `_checkVersion` registers: destructure
`{ name, version }`; when `name === 'version-mismatch'`, destructure
`[fromVersion, tillVersion] = config.emberVersionsSupported` (a missing
entry reads as `undefined`) and classify `version`. A too-old version
selects `previousVersions[previousVersions.length - 1]` — on an empty
list JS reads index `-1`, i.e. `undefined`, and so does the optional index read here (truncated subtraction gives index 0, out of range for `[]`).
The upper-bound branch is guarded by JS truthiness of `tillVersion`
(both `undefined` and the empty string are falsy) and by
`compareVersion(version, tillVersion) !== -1`. -/
def checkVersionCallback (config : Config) (message : Message) : CheckResult :=
  if message.name = some "version-mismatch" then
    let previousVersions := config.previousEmberVersionsSupported
    let fromVersion := config.emberVersionsSupported[0]?
    let tillVersion := config.emberVersionsSupported[1]?
    match compareVersionOpt message.version fromVersion with
    | .error _ => .typeError
    | .ok c1 =>
      if c1 = some (-1) then
        .call previousVersions[previousVersions.length - 1]?
      else
        match tillVersion with
        | some till =>
          if till ≠ "" then
            match compareVersionOpt message.version (some till) with
            | .error _ => .typeError
            | .ok c2 => if c2 ≠ some (-1) then .call (some till) else .noCall
          else .noCall
        | none => .noCall
  else .noCall

/-- Observable adapter actions, in the order they are performed: a
callback registration (`onMessageReceived`) or a `sendMessage` call. -/
inductive AdapterEvent where
  | registered
  | sent (message : OutMessage)
deriving DecidableEq

/-- The adapter instance state: its `_messageCallbacks` list, plus the log
of observable actions performed on it. -/
structure AdapterState where
  messageCallbacks : List Callback
  events : List AdapterEvent

/-- A freshly constructed instance: `_messageCallbacks` defaults to `[]`. -/
def emptyAdapter : AdapterState := ⟨[], []⟩

/-- `onMessageReceived(callback)`:
`this.get('_messageCallbacks').pushObject(callback)` — appends the
callback (no deduplication, no removal). -/
def onMessageReceived (s : AdapterState) (callback : Callback) : AdapterState :=
  { s with
    messageCallbacks := s.messageCallbacks ++ [callback]
    events := s.events ++ [.registered] }

/-- `sendMessage(message)`: a no-op transport hook in the basic adapter;
the call itself is the observable this model records. -/
def sendMessage (s : AdapterState) (message : OutMessage) : AdapterState :=
  { s with events := s.events ++ [.sent message] }

/-- The listener that `_checkVersion` registers, viewed as a `Callback`:
it throws exactly when its body raises a TypeError. -/
def internalListener (config : Config) : Callback := fun message =>
  match checkVersionCallback config message with
  | .typeError => .exn
  | _ => .ok

/-- `_checkVersion()`: register the internal listener via
`onMessageReceived`, then
`this.sendMessage({ type: 'check-version', from: 'devtools' })`. -/
def checkVersion (config : Config) (s : AdapterState) : AdapterState :=
  sendMessage (onMessageReceived s (internalListener config))
    ⟨"check-version", "devtools"⟩

/-- `init()`: `this._super(...arguments); this._checkVersion();` on a
fresh instance. -/
def init (config : Config) : AdapterState :=
  checkVersion config emptyAdapter

/-- `_messageReceived(message)`:
`this.get('_messageCallbacks').forEach(callback => { callback(message); })`
with JS `forEach` semantics: callbacks run in order, and an exception
thrown by one propagates out of `forEach`, ending the iteration. Returns
the 0-based positions of the callbacks that were invoked (`i` is the
position offset) and whether an exception escaped. -/
def forEachDispatch (i : Nat) : List Callback → Message → List Nat × Bool
  | [], _ => ([], false)
  | callback :: rest, message =>
    match callback message with
    | .ok =>
      let r := forEachDispatch (i + 1) rest message
      (i :: r.1, r.2)
    | .exn => ([i], true)

/-- `_messageReceived` on an adapter state. -/
def messageReceived (s : AdapterState) (message : Message) : List Nat × Bool :=
  forEachDispatch 0 s.messageCallbacks message

/- Specification-side notions used to state the claims. -/

/-- A version component: a nonempty string of decimal digits. -/
def isDigits (cs : List Char) : Bool :=
  !cs.isEmpty && cs.all Char.isDigit

/-- A valid `major.minor.patch` version string: three nonempty digit
components joined by dots. -/
def ValidVersion (s : String) : Prop :=
  ∃ a b c : List Char, isDigits a = true ∧ isDigits b = true ∧
    isDigits c = true ∧ s.data = a ++ '.' :: (b ++ '.' :: c)

/-- A well-formed version string: three nonempty digit components joined
by dots, optionally followed by a `-` pre-release suffix (a pre-release
tag contains no line terminator). -/
def WellFormedVersion (s : String) : Prop :=
  ∃ a b c rest : List Char, isDigits a = true ∧ isDigits b = true ∧
    isDigits c = true ∧
    (s.data = a ++ '.' :: (b ++ '.' :: c) ∨
      (s.data = (a ++ '.' :: (b ++ '.' :: c)) ++ '-' :: rest ∧
        ∀ ch ∈ rest, isLineTerminator ch = false))

/-- Three-way comparison of naturals, as `compare` performs it on two
actual numbers. -/
def cmpNat (x y : Nat) : Int :=
  if x = y then 0 else if x < y then -1 else 1

/-- Lexicographic three-way comparison of component triples: the value
`compareVersion` computes on valid version strings. -/
def cmp3 (p q : Nat × Nat × Nat) : Int :=
  if cmpNat p.1 q.1 ≠ 0 then cmpNat p.1 q.1
  else if cmpNat p.2.1 q.2.1 ≠ 0 then cmpNat p.2.1 q.2.1
  else if cmpNat p.2.2 q.2.2 ≠ 0 then cmpNat p.2.2 q.2.2
  else 0

/- Helper lemmas. -/

theorem data_append (x y : String) : (x ++ y).data = x.data ++ y.data := by
  cases x; cases y; rfl

theorem cleanupVersion_data (v : String) :
    (cleanupVersion v).data = cleanupAux .scan v.data := rfl

theorem cleanupAux_scan_no_dash (l : List Char) (h : ∀ c ∈ l, c ≠ '-') :
    cleanupAux .scan l = l := by
  induction l with
  | nil => rfl
  | cons c rest ih =>
    have hc : c ≠ '-' := h c (by simp)
    simp only [cleanupAux, if_neg hc]
    exact congrArg (c :: ·) (ih fun d hd => h d (by simp [hd]))

theorem cleanupAux_skip_no_term (l : List Char)
    (h : ∀ c ∈ l, isLineTerminator c = false) :
    cleanupAux .skip l = [] := by
  induction l with
  | nil => rfl
  | cons c rest ih =>
    have hc : isLineTerminator c = false := h c (by simp)
    simp only [cleanupAux, hc, if_neg Bool.false_ne_true]
    exact ih fun d hd => h d (by simp [hd])

theorem cleanupAux_append_dash (s : List Char)
    (hs : ∀ c ∈ s, isLineTerminator c = false) (l : List Char) :
    cleanupAux .scan (l ++ '-' :: s) = cleanupAux .scan l ∧
      cleanupAux .skip (l ++ '-' :: s) = cleanupAux .skip l := by
  induction l with
  | nil =>
    have hskip : cleanupAux .skip s = [] := cleanupAux_skip_no_term s hs
    constructor
    · simpa [cleanupAux] using hskip
    · have hdash : isLineTerminator '-' = false := rfl
      simpa [cleanupAux, hdash] using hskip
  | cons c rest ih =>
    constructor
    · by_cases hc : c = '-' <;> simp [cleanupAux, hc, ih.1, ih.2]
    · by_cases hc : isLineTerminator c <;> simp [cleanupAux, hc, ih.1, ih.2]

theorem splitOnDot_no_dot (l : List Char) (h : ∀ c ∈ l, c ≠ '.') :
    splitOnDot l = [l] := by
  induction l with
  | nil => rfl
  | cons c rest ih =>
    have hc : c ≠ '.' := h c (by simp)
    simp only [splitOnDot, if_neg hc, ih fun d hd => h d (by simp [hd])]

theorem splitOnDot_append (a r : List Char) (h : ∀ c ∈ a, c ≠ '.') :
    splitOnDot (a ++ '.' :: r) = a :: splitOnDot r := by
  induction a with
  | nil => simp [splitOnDot]
  | cons c rest ih =>
    have hc : c ≠ '.' := h c (by simp)
    have ih' := ih fun d hd => h d (by simp [hd])
    simp only [List.cons_append, splitOnDot, if_neg hc, List.append_eq, ih']

theorem isDigits_all {l : List Char} (h : isDigits l = true) :
    ∀ c ∈ l, c.isDigit = true := by
  unfold isDigits at h
  simp only [Bool.and_eq_true, List.all_eq_true] at h
  exact fun c hc => h.2 c hc

theorem digit_ne_dash {c : Char} (h : c.isDigit = true) : c ≠ '-' := by
  rintro rfl
  exact absurd h (by decide)

theorem digit_ne_dot {c : Char} (h : c.isDigit = true) : c ≠ '.' := by
  rintro rfl
  exact absurd h (by decide)

theorem jsToNat_isDigits (a : List Char) (h : isDigits a = true) :
    jsToNat a = some (digitsToNat a) := by
  unfold jsToNat
  unfold isDigits at h
  simp only [Bool.and_eq_true, Bool.not_eq_true'] at h
  simp [h.1, h.2]

theorem compareNum_some (x y : Nat) :
    compareNum (some x) (some y) = some (cmpNat x y) := by
  simp only [compareNum, cmpNat]
  split_ifs <;> rfl

theorem compareParts_digits (a b c d e f : List Char)
    (ha : isDigits a = true) (hb : isDigits b = true) (hc : isDigits c = true)
    (hd : isDigits d = true) (he : isDigits e = true) (hf : isDigits f = true) :
    compareParts [a, b, c] [d, e, f] =
      some (cmp3 (digitsToNat a, digitsToNat b, digitsToNat c)
        (digitsToNat d, digitsToNat e, digitsToNat f)) := by
  have g0 : getComp [a, b, c] 0 = jsToNat a := rfl
  have g1 : getComp [a, b, c] 1 = jsToNat b := rfl
  have g2 : getComp [a, b, c] 2 = jsToNat c := rfl
  have g3 : getComp [d, e, f] 0 = jsToNat d := rfl
  have g4 : getComp [d, e, f] 1 = jsToNat e := rfl
  have g5 : getComp [d, e, f] 2 = jsToNat f := rfl
  unfold compareParts
  rw [g0, g1, g2, g3, g4, g5, jsToNat_isDigits a ha, jsToNat_isDigits b hb,
    jsToNat_isDigits c hc, jsToNat_isDigits d hd, jsToNat_isDigits e he,
    jsToNat_isDigits f hf, compareNum_some, compareNum_some, compareNum_some]
  unfold cmp3
  simp only [ne_eq, Option.some.injEq]
  split_ifs <;> simp_all

theorem cmpNat_eq_zero (x y : Nat) : cmpNat x y = 0 ↔ x = y := by
  unfold cmpNat
  split_ifs with h1 h2
  · simp [h1]
  · constructor
    · intro h
      exact absurd h (by decide)
    · intro h
      exact absurd h h1
  · constructor
    · intro h
      exact absurd h (by decide)
    · intro h
      exact absurd h h1

theorem cmpNat_eq_negOne (x y : Nat) : cmpNat x y = -1 ↔ x < y := by
  unfold cmpNat
  split_ifs with h1 h2
  · constructor
    · intro h
      exact absurd h (by decide)
    · intro h
      exact absurd h1 (Nat.ne_of_lt h)
  · simp [h2]
  · constructor
    · intro h
      exact absurd h (by decide)
    · intro h
      exact absurd h h2

theorem cmpNat_eq_one (x y : Nat) : cmpNat x y = 1 ↔ y < x := by
  unfold cmpNat
  split_ifs with h1 h2
  · constructor
    · intro h
      exact absurd h (by decide)
    · intro h
      exact absurd h1.symm (Nat.ne_of_lt h)
  · constructor
    · intro h
      exact absurd h (by decide)
    · intro h
      exact absurd (Nat.lt_trans h h2) (Nat.lt_irrefl y)
  · constructor
    · intro _
      omega
    · intro _
      rfl

theorem cmpNat_cases (x y : Nat) :
    cmpNat x y = -1 ∨ cmpNat x y = 0 ∨ cmpNat x y = 1 := by
  unfold cmpNat
  split_ifs <;> simp

theorem cmp3_eq_zero (a b c d e f : Nat) :
    cmp3 (a, b, c) (d, e, f) = 0 ↔ a = d ∧ b = e ∧ c = f := by
  simp only [cmp3, ne_eq, cmpNat_eq_zero, ite_not]
  split_ifs with h1 h2 h3
  · simp [h1, h2, h3]
  · rw [cmpNat_eq_zero]
    simp [h1, h2, h3]
  · rw [cmpNat_eq_zero]
    simp [h1, h2]
  · rw [cmpNat_eq_zero]
    simp [h1]

theorem cmp3_eq_negOne (a b c d e f : Nat) :
    cmp3 (a, b, c) (d, e, f) = -1 ↔
      a < d ∨ (a = d ∧ (b < e ∨ (b = e ∧ c < f))) := by
  simp only [cmp3, ne_eq, cmpNat_eq_zero, ite_not]
  split_ifs with h1 h2 h3
  · subst h1; subst h2; subst h3
    simp
  · rw [cmpNat_eq_negOne]
    subst h1; subst h2
    simp [h3]
  · rw [cmpNat_eq_negOne]
    subst h1
    simp [h2]
  · rw [cmpNat_eq_negOne]
    simp [h1]

theorem cmp3_eq_one (a b c d e f : Nat) :
    cmp3 (a, b, c) (d, e, f) = 1 ↔
      d < a ∨ (d = a ∧ (e < b ∨ (e = b ∧ f < c))) := by
  simp only [cmp3, ne_eq, cmpNat_eq_zero, ite_not]
  split_ifs with h1 h2 h3
  · subst h1; subst h2; subst h3
    simp
  · rw [cmpNat_eq_one]
    subst h1; subst h2
    omega
  · rw [cmpNat_eq_one]
    subst h1
    omega
  · rw [cmpNat_eq_one]
    omega

theorem cmp3_cases (p q : Nat × Nat × Nat) :
    cmp3 p q = -1 ∨ cmp3 p q = 0 ∨ cmp3 p q = 1 := by
  obtain ⟨a, b, c⟩ := p
  obtain ⟨d, e, f⟩ := q
  simp only [cmp3, ne_eq, cmpNat_eq_zero, ite_not]
  split_ifs with h1 h2 h3
  · simp
  · exact cmpNat_cases c f
  · exact cmpNat_cases b e
  · exact cmpNat_cases a d

theorem cmp3_neg (p q : Nat × Nat × Nat) : cmp3 q p = -cmp3 p q := by
  obtain ⟨a, b, c⟩ := p
  obtain ⟨d, e, f⟩ := q
  rcases cmp3_cases (a, b, c) (d, e, f) with h | h | h <;> rw [h]
  · rw [cmp3_eq_negOne] at h
    rw [show -(-1 : Int) = 1 by decide, cmp3_eq_one]
    exact h
  · rw [cmp3_eq_zero] at h
    obtain ⟨rfl, rfl, rfl⟩ := h
    rw [neg_zero, cmp3_eq_zero]
    exact ⟨rfl, rfl, rfl⟩
  · rw [cmp3_eq_one] at h
    rw [show -(1 : Int) = -1 by decide, cmp3_eq_negOne]
    exact h

theorem cmp3_trans (p q r : Nat × Nat × Nat) (k : Int)
    (h1 : cmp3 p q = k) (h2 : cmp3 q r = k) : cmp3 p r = k := by
  obtain ⟨a, b, c⟩ := p
  obtain ⟨d, e, f⟩ := q
  obtain ⟨g, i, j⟩ := r
  rcases cmp3_cases (a, b, c) (d, e, f) with h | h | h <;>
    rw [h] at h1 <;> subst h1
  · rw [cmp3_eq_negOne] at h h2 ⊢
    omega
  · rw [cmp3_eq_zero] at h
    obtain ⟨rfl, rfl, rfl⟩ := h
    exact h2
  · rw [cmp3_eq_one] at h h2 ⊢
    omega

/-- Every member of the core `a.b.c` of a valid version string is a digit
or the dot. -/
theorem core_mem {a b c : List Char} {ch : Char}
    (hch : ch ∈ a ++ '.' :: (b ++ '.' :: c)) :
    ch ∈ a ∨ ch ∈ b ∨ ch ∈ c ∨ ch = '.' := by
  simp only [List.mem_append, List.mem_cons] at hch
  tauto

theorem core_no_dash {a b c : List Char}
    (ha : isDigits a = true) (hb : isDigits b = true) (hc : isDigits c = true) :
    ∀ ch ∈ a ++ '.' :: (b ++ '.' :: c), ch ≠ '-' := by
  intro ch hch
  rcases core_mem hch with h | h | h | h
  · exact digit_ne_dash (isDigits_all ha ch h)
  · exact digit_ne_dash (isDigits_all hb ch h)
  · exact digit_ne_dash (isDigits_all hc ch h)
  · subst h
    decide

/-- `compareVersion` on strings whose cleaned forms are valid version
cores computes the lexicographic three-way comparison of the component
values. -/
theorem compareVersion_cleaned_eq (s t : String) (a b c d e f : List Char)
    (ha : isDigits a = true) (hb : isDigits b = true) (hc : isDigits c = true)
    (hd : isDigits d = true) (he : isDigits e = true) (hf : isDigits f = true)
    (hsd : cleanupAux .scan s.data = a ++ '.' :: (b ++ '.' :: c))
    (htd : cleanupAux .scan t.data = d ++ '.' :: (e ++ '.' :: f)) :
    compareVersion s t =
      some (cmp3 (digitsToNat a, digitsToNat b, digitsToNat c)
        (digitsToNat d, digitsToNat e, digitsToNat f)) := by
  unfold compareVersion
  rw [cleanupVersion_data, cleanupVersion_data, hsd, htd,
    splitOnDot_append a _ (fun ch hch => digit_ne_dot (isDigits_all ha ch hch)),
    splitOnDot_append b _ (fun ch hch => digit_ne_dot (isDigits_all hb ch hch)),
    splitOnDot_no_dot c (fun ch hch => digit_ne_dot (isDigits_all hc ch hch)),
    splitOnDot_append d _ (fun ch hch => digit_ne_dot (isDigits_all hd ch hch)),
    splitOnDot_append e _ (fun ch hch => digit_ne_dot (isDigits_all he ch hch)),
    splitOnDot_no_dot f (fun ch hch => digit_ne_dot (isDigits_all hf ch hch))]
  exact compareParts_digits a b c d e f ha hb hc hd he hf

/-- `compareVersion` on valid version strings. -/
theorem compareVersion_valid_eq (s t : String) (a b c d e f : List Char)
    (ha : isDigits a = true) (hb : isDigits b = true) (hc : isDigits c = true)
    (hd : isDigits d = true) (he : isDigits e = true) (hf : isDigits f = true)
    (hsd : s.data = a ++ '.' :: (b ++ '.' :: c))
    (htd : t.data = d ++ '.' :: (e ++ '.' :: f)) :
    compareVersion s t =
      some (cmp3 (digitsToNat a, digitsToNat b, digitsToNat c)
        (digitsToNat d, digitsToNat e, digitsToNat f)) := by
  refine compareVersion_cleaned_eq s t a b c d e f ha hb hc hd he hf ?_ ?_
  · rw [hsd]
    exact cleanupAux_scan_no_dash _ (core_no_dash ha hb hc)
  · rw [htd]
    exact cleanupAux_scan_no_dash _ (core_no_dash hd he hf)

/-- The cleaned form of a well-formed version string is its valid core:
a `-` pre-release suffix (terminator-free) is stripped entirely. -/
theorem cleanup_wellFormed (s : String) (hs : WellFormedVersion s) :
    ∃ a b c : List Char, isDigits a = true ∧ isDigits b = true ∧
      isDigits c = true ∧
      cleanupAux .scan s.data = a ++ '.' :: (b ++ '.' :: c) := by
  obtain ⟨a, b, c, rest, ha, hb, hc, hcase⟩ := hs
  refine ⟨a, b, c, ha, hb, hc, ?_⟩
  rcases hcase with hsd | ⟨hsd, hrest⟩
  · rw [hsd]
    exact cleanupAux_scan_no_dash _ (core_no_dash ha hb hc)
  · rw [hsd, (cleanupAux_append_dash rest hrest _).1]
    exact cleanupAux_scan_no_dash _ (core_no_dash ha hb hc)

/-- Dispatch over callbacks that all return normally invokes each of them,
in order. -/
theorem forEachDispatch_all_ok (m : Message) (cbs : List Callback) :
    ∀ i : Nat, (∀ cb ∈ cbs, cb m = .ok) →
      forEachDispatch i cbs m = (List.range' i cbs.length, false) := by
  induction cbs with
  | nil =>
    intro i _
    rfl
  | cons cb rest ih =>
    intro i h
    have hcb : cb m = .ok := h cb (by simp)
    have ih' := ih (i + 1) fun d hd => h d (by simp [hd])
    simp [forEachDispatch, hcb, ih', List.range']

/- The claims. -/

/-- C1 (code defect): `_messageReceived` iterates `_messageCallbacks` with
a bare `forEach`, so an exception thrown by one callback propagates and
ends the iteration. With a throwing callback registered first and a normal
callback second, only position 0 is invoked: the later-registered callback
never receives the message, contradicting the isolation policy that each
callback be invoked regardless of whether an earlier one threw. -/
theorem dispatch_abort_eval :
    forEachDispatch 0 [fun _ => .exn, fun _ => .ok] ⟨none, none⟩ = ([0], true) ∧
      1 ∉ (forEachDispatch 0 [fun _ => .exn, fun _ => .ok] ⟨none, none⟩).1 :=
  ⟨rfl, by decide⟩

/-- C2: for an inbound message of shape `{name: 'version-mismatch',
version}`, the internal check classifies `version` against the configured
window: below `fromVersion` it calls `onVersionMismatch` with the last
element read from `previousEmberVersionsSupported`; else, when
`tillVersion` is configured and `version` is not LESS than it, it calls
`onVersionMismatch tillVersion`; otherwise it makes no call. (A configured
`tillVersion` is a version string, hence nonempty; the last hypothesis
rules out the degenerate empty string, which JS truthiness would treat
like an absent bound.) -/
theorem checkVersion_classification (config : Config) (m : Message)
    (v fromVersion : String)
    (hname : m.name = some "version-mismatch")
    (hver : m.version = some v)
    (hfrom : config.emberVersionsSupported[0]? = some fromVersion)
    (htill : config.emberVersionsSupported[1]? ≠ some "") :
    checkVersionCallback config m =
      if compareVersion v fromVersion = some (-1) then
        .call config.previousEmberVersionsSupported[config.previousEmberVersionsSupported.length - 1]?
      else
        match config.emberVersionsSupported[1]? with
        | some till =>
            if compareVersion v till ≠ some (-1) then .call (some till)
            else .noCall
        | none => .noCall := by
  by_cases h1 : compareVersion v fromVersion = some (-1)
  · simp [checkVersionCallback, hname, hver, hfrom, compareVersionOpt, h1]
  · cases h2 : config.emberVersionsSupported[1]? with
    | none => simp [checkVersionCallback, hname, hver, hfrom, compareVersionOpt, h1, h2]
    | some till =>
      have htne : till ≠ "" := fun he => htill (h2.trans (by rw [he]))
      simp [checkVersionCallback, hname, hver, hfrom, compareVersionOpt, h1, h2, htne]

/-- C2 witness: with window `["2.0.0", "3.0.0"]` and previous versions
`["1.8.0", "1.9.0"]`, a mismatch message reporting `1.5.0` triggers
`onVersionMismatch "1.9.0"`. -/
theorem checkVersion_classification_witness :
    checkVersionCallback ⟨["1.8.0", "1.9.0"], ["2.0.0", "3.0.0"]⟩
      ⟨some "version-mismatch", some "1.5.0"⟩ = .call (some "1.9.0") := by
  have h := checkVersion_classification ⟨["1.8.0", "1.9.0"], ["2.0.0", "3.0.0"]⟩
    ⟨some "version-mismatch", some "1.5.0"⟩ "1.5.0" "2.0.0" rfl rfl rfl (by decide)
  rw [h]
  decide

/-- C3: constructing an adapter performs the startup handshake: the
internal listener is appended to the (initially empty) callback list
first, and exactly one outbound message, equal to
`{type: 'check-version', from: 'devtools'}`, is sent afterwards. -/
theorem init_handshake (config : Config) :
    (init config).events = [.registered, .sent ⟨"check-version", "devtools"⟩] ∧
      (init config).messageCallbacks = [internalListener config] :=
  ⟨rfl, rfl⟩

/-- C4 counterexample: with callbacks registered at positions 0, 1, 2 and
the one at position 1 throwing, dispatching one message invokes positions
0 and 1 only; the occurrence registered at position 2 is never invoked,
refuting unconditional exactly-once invocation. -/
theorem dispatch_not_exactly_once_cex :
    messageReceived ⟨[fun _ => .ok, fun _ => .exn, fun _ => .ok], []⟩
        ⟨some "render", none⟩ = ([0, 1], true) ∧
      2 ∉ (messageReceived ⟨[fun _ => .ok, fun _ => .exn, fun _ => .ok], []⟩
        ⟨some "render", none⟩).1 :=
  ⟨rfl, by decide⟩

/-- C4 (amended): the callback list only grows — `onMessageReceived`
appends the given callback, never deduplicating and never removing any
callback — and for every sequence of registrations followed by a dispatch
of one message in which no callback throws, the callbacks are invoked in
exactly registration order and each registered occurrence is invoked
exactly once. (The amendment adds the no-throw proviso: a thrown
exception aborts dispatch for the remaining callbacks, see the
counterexample.) -/
theorem register_append_dispatch_order :
    (∀ (s : AdapterState) (cb : Callback),
      (onMessageReceived s cb).messageCallbacks = s.messageCallbacks ++ [cb]) ∧
      ∀ (s : AdapterState) (m : Message),
        (∀ cb ∈ s.messageCallbacks, cb m = .ok) →
        messageReceived s m = (List.range s.messageCallbacks.length, false) := by
  constructor
  · intro s cb
    rfl
  · intro s m h
    unfold messageReceived
    rw [forEachDispatch_all_ok m s.messageCallbacks 0 h, List.range_eq_range']

/-- C4 witness: one registration on a fresh adapter yields one callback;
dispatching to two normal callbacks invokes positions 0 and 1 in order,
once each. -/
theorem register_append_dispatch_order_witness :
    (onMessageReceived ⟨[], []⟩ (fun _ => .ok)).messageCallbacks.length = 1 ∧
      messageReceived ⟨[fun _ => .ok, fun _ => .ok], []⟩ ⟨none, some "2.0.0"⟩ =
        ([0, 1], false) := by
  constructor
  · rw [register_append_dispatch_order.1 ⟨[], []⟩ (fun _ => .ok)]
    rfl
  · have hok : ∀ cb ∈ ([fun _ => .ok, fun _ => .ok] : List Callback),
        cb (⟨none, some "2.0.0"⟩ : Message) = .ok := by
      intro cb hcb
      rcases List.mem_cons.mp hcb with rfl | h'
      · rfl
      · rcases List.mem_cons.mp h' with rfl | h''
        · rfl
        · exact absurd h'' (List.not_mem_nil cb)
    rw [register_append_dispatch_order.2
      ⟨[fun _ => .ok, fun _ => .ok], []⟩ ⟨none, some "2.0.0"⟩ hok]
    rfl

/-- C5: on valid `major.minor.patch` version strings, `compareVersion` is
antisymmetric — `compareVersion t s` is the negation of
`compareVersion s t` — and the induced LESS/EQUAL/GREATER ordering is
transitive (uniformly in the shared result `k`). -/
theorem compareVersion_antisymm_trans (s t u : String)
    (hs : ValidVersion s) (ht : ValidVersion t) (hu : ValidVersion u) :
    compareVersion t s = (compareVersion s t).map (fun k => -k) ∧
      ∀ k : Int, compareVersion s t = some k → compareVersion t u = some k →
        compareVersion s u = some k := by
  obtain ⟨a, b, c, ha, hb, hc, hsd⟩ := hs
  obtain ⟨d, e, f, hd, he, hf, htd⟩ := ht
  obtain ⟨g, i, j, hg, hi, hj, hud⟩ := hu
  have hst := compareVersion_valid_eq s t a b c d e f ha hb hc hd he hf hsd htd
  have hts := compareVersion_valid_eq t s d e f a b c hd he hf ha hb hc htd hsd
  have htu := compareVersion_valid_eq t u d e f g i j hd he hf hg hi hj htd hud
  have hsu := compareVersion_valid_eq s u a b c g i j ha hb hc hg hi hj hsd hud
  constructor
  · rw [hst, hts]
    simp only [Option.map_some']
    rw [cmp3_neg]
  · intro k h1 h2
    rw [hst] at h1
    rw [htu] at h2
    rw [hsu]
    exact congrArg some
      (cmp3_trans _ _ _ k (Option.some.inj h1) (Option.some.inj h2))

/-- C5 witness: transitivity applied at `1.0.0 < 2.0.0 < 3.0.0`. -/
theorem compareVersion_antisymm_trans_witness :
    compareVersion "1.0.0" "3.0.0" = some (-1) := by
  have h := compareVersion_antisymm_trans "1.0.0" "2.0.0" "3.0.0"
    ⟨['1'], ['0'], ['0'], by decide, by decide, by decide, by decide⟩
    ⟨['2'], ['0'], ['0'], by decide, by decide, by decide, by decide⟩
    ⟨['3'], ['0'], ['0'], by decide, by decide, by decide, by decide⟩
  exact h.2 (-1) (by decide) (by decide)

/-- C6 counterexample: the stripping regex `-.*` does not match past a
line terminator, so a suffix beginning with `-` that contains a newline is
not entirely stripped: `compareVersion("2.5.0" + "-" + "x\n9", "2.5.0")`
yields `undefined` (the third component coerces to NaN), which differs
from `compareVersion("2.5.0", "2.5.0")`, refuting the equation for an
arbitrary suffix. -/
theorem suffix_strip_cex :
    ¬ (compareVersion ("2.5.0" ++ "-" ++ "x\n9") "2.5.0" =
        compareVersion "2.5.0" "2.5.0") := by decide

/-- C6 (amended): pre-release/build suffixes containing no line terminator
are ignored entirely by comparison: any suffix beginning with `-` (and
free of line terminators, which the regex `-.*` cannot match past) is
stripped before comparing, so
`compareVersion("2.5.0-beta.1", "2.5.0") = EQUAL` and
`compareVersion(v + "-" + s, w) = compareVersion(v, w)` for every such
suffix `s`. -/
theorem suffix_strip :
    compareVersion "2.5.0-beta.1" "2.5.0" = some 0 ∧
      ∀ v w s : String, (∀ ch ∈ s.data, isLineTerminator ch = false) →
        compareVersion (v ++ "-" ++ s) w = compareVersion v w := by
  constructor
  · decide
  · intro v w s hs
    have hdata : (v ++ "-" ++ s).data = v.data ++ '-' :: s.data := by
      rw [data_append, data_append]
      have hd : ("-" : String).data = ['-'] := rfl
      rw [hd]
      simp
    unfold compareVersion
    simp only [cleanupVersion_data]
    rw [hdata, (cleanupAux_append_dash s.data hs v.data).1]

/-- C6 witness: a terminator-free suffix is fully ignored. -/
theorem suffix_strip_witness :
    compareVersion ("1.2.3" ++ "-" ++ "alpha") "2.0.0" =
      compareVersion "1.2.3" "2.0.0" :=
  suffix_strip.2 "1.2.3" "2.0.0" "alpha" (by decide)

/-- C7: comparison is component-wise numeric, not lexicographic on the
whole string: on valid version strings `compareVersion` equals the
three-way lexicographic comparison `cmp3` of the integer component values
(major, then minor, then patch, returning at the first unequal component
and EQUAL when all three match); in particular
`compareVersion("2.10.0", "2.9.0")` is GREATER. -/
theorem compareVersion_componentwise :
    (∀ (s t : String) (a b c d e f : List Char),
      isDigits a = true → isDigits b = true → isDigits c = true →
      isDigits d = true → isDigits e = true → isDigits f = true →
      s.data = a ++ '.' :: (b ++ '.' :: c) →
      t.data = d ++ '.' :: (e ++ '.' :: f) →
      compareVersion s t =
        some (cmp3 (digitsToNat a, digitsToNat b, digitsToNat c)
          (digitsToNat d, digitsToNat e, digitsToNat f))) ∧
      compareVersion "2.10.0" "2.9.0" = some 1 := by
  constructor
  · exact compareVersion_valid_eq
  · decide

/-- C7 witness: component-wise comparison at `1.2.3` versus `1.2.4`. -/
theorem compareVersion_componentwise_witness :
    compareVersion "1.2.3" "1.2.4" = some (-1) := by
  have h := compareVersion_componentwise.1 "1.2.3" "1.2.4"
    ['1'] ['2'] ['3'] ['1'] ['2'] ['4'] (by decide) (by decide) (by decide)
    (by decide) (by decide) (by decide) (by decide) (by decide)
  rw [h]
  decide

/-- C8 counterexample: pass-through to all externally registered callbacks
is not unconditional: with two registered callbacks of which the first
throws, dispatching an inbound message invokes position 0 only — the
second callback never receives the message. -/
theorem passthrough_cex :
    (messageReceived ⟨[fun _ => .exn, fun _ => .ok], []⟩
        ⟨some "general:refresh", none⟩).1 = [0] ∧
      1 ∉ (messageReceived ⟨[fun _ => .exn, fun _ => .ok], []⟩
        ⟨some "general:refresh", none⟩).1 :=
  ⟨rfl, by decide⟩

/-- C8 (amended): every inbound message, regardless of its shape, is
passed to all registered callbacks provided no callback throws on it (an
exception aborts dispatch for the rest, see the counterexample); and only
messages whose `name` field equals `version-mismatch` can trigger the
version-check logic — for every message with any other name (or no name)
the internal listener never calls `onVersionMismatch`. -/
theorem passthrough_and_name_filter :
    (∀ (s : AdapterState) (m : Message),
      (∀ cb ∈ s.messageCallbacks, cb m = .ok) →
      (messageReceived s m).1 = List.range s.messageCallbacks.length) ∧
      ∀ (config : Config) (m : Message),
        m.name ≠ some "version-mismatch" →
        checkVersionCallback config m = .noCall := by
  constructor
  · intro s m h
    unfold messageReceived
    rw [forEachDispatch_all_ok m s.messageCallbacks 0 h, List.range_eq_range']
  · intro config m h
    unfold checkVersionCallback
    rw [if_neg h]

/-- C8 witness: an arbitrarily shaped message reaches the one registered
callback, and a non-mismatch name triggers no version check. -/
theorem passthrough_and_name_filter_witness :
    (messageReceived ⟨[fun _ => .ok], []⟩
        ⟨some "unknown-shape", some "?"⟩).1 = [0] ∧
      checkVersionCallback ⟨[], []⟩ ⟨some "general:refresh", none⟩ =
        .noCall := by
  constructor
  · have hok : ∀ cb ∈ ([fun _ => .ok] : List Callback),
        cb (⟨some "unknown-shape", some "?"⟩ : Message) = .ok := by
      intro cb hcb
      rcases List.mem_cons.mp hcb with rfl | h'
      · rfl
      · exact absurd h' (List.not_mem_nil cb)
    rw [passthrough_and_name_filter.1 ⟨[fun _ => .ok], []⟩
      ⟨some "unknown-shape", some "?"⟩ hok]
    rfl
  · exact passthrough_and_name_filter.2 ⟨[], []⟩ ⟨some "general:refresh", none⟩
      (by decide)

/-- C9: `compareVersion` is total onto the declared result set on
well-formed version strings (three dot-separated digit components,
optionally followed by a `-` pre-release suffix): it returns exactly one
of LESS, EQUAL or GREATER, so the implicit `undefined` fall-through of
the `compare` helper is unreachable on this domain. -/
theorem compareVersion_total (s t : String)
    (hs : WellFormedVersion s) (ht : WellFormedVersion t) :
    compareVersion s t = some (-1) ∨ compareVersion s t = some 0 ∨
      compareVersion s t = some 1 := by
  obtain ⟨a, b, c, ha, hb, hc, hsd⟩ := cleanup_wellFormed s hs
  obtain ⟨d, e, f, hd, he, hf, htd⟩ := cleanup_wellFormed t ht
  have h := compareVersion_cleaned_eq s t a b c d e f ha hb hc hd he hf hsd htd
  rcases cmp3_cases (digitsToNat a, digitsToNat b, digitsToNat c)
      (digitsToNat d, digitsToNat e, digitsToNat f) with hk | hk | hk
  · exact Or.inl (by rw [h, hk])
  · exact Or.inr (Or.inl (by rw [h, hk]))
  · exact Or.inr (Or.inr (by rw [h, hk]))

/-- C9 witness: totality at `1.2.3-beta` versus `1.2.3`. -/
theorem compareVersion_total_witness :
    compareVersion "1.2.3-beta" "1.2.3" = some (-1) ∨
      compareVersion "1.2.3-beta" "1.2.3" = some 0 ∨
      compareVersion "1.2.3-beta" "1.2.3" = some 1 :=
  compareVersion_total "1.2.3-beta" "1.2.3"
    ⟨['1'], ['2'], ['3'], ['b', 'e', 't', 'a'], by decide, by decide, by decide,
      Or.inr ⟨by decide, by decide⟩⟩
    ⟨['1'], ['2'], ['3'], [], by decide, by decide, by decide,
      Or.inl (by decide)⟩

/-- C10: when a version-mismatch message reports a version below
`fromVersion` and the configured `previousEmberVersionsSupported` list is
empty, `onVersionMismatch` is still invoked — with `undefined` (the
out-of-bounds last-element read) as the needed version — rather than the
mismatch action being skipped. -/
theorem mismatch_empty_previous (config : Config) (m : Message)
    (v fromVersion : String)
    (hname : m.name = some "version-mismatch")
    (hver : m.version = some v)
    (hfrom : config.emberVersionsSupported[0]? = some fromVersion)
    (hprev : config.previousEmberVersionsSupported = [])
    (hlt : compareVersion v fromVersion = some (-1)) :
    checkVersionCallback config m = .call none := by
  simp [checkVersionCallback, hname, hver, hfrom, hprev, compareVersionOpt, hlt]

/-- C10 witness: an empty previous-versions list with a too-old reported
version still produces a mismatch call, carrying `undefined`. -/
theorem mismatch_empty_previous_witness :
    checkVersionCallback ⟨[], ["2.0.0", "3.0.0"]⟩
      ⟨some "version-mismatch", some "1.5.0"⟩ = .call none :=
  mismatch_empty_previous ⟨[], ["2.0.0", "3.0.0"]⟩
    ⟨some "version-mismatch", some "1.5.0"⟩ "1.5.0" "2.0.0" rfl rfl rfl rfl
    (by decide)

end BasicAdapter
